import Mathlib

/-!
A verification development for `src/shell_funcs.c` of the Shell repository.

The file embeds the three functions of the source file —
`close_all`, `run_piped_command` and `run_pipelined_commands` — as
executable Lean definitions.  Machine-level effects are made explicit:

* the token vector (`strvec_t`) is a `List String`; the helper functions
  `strvec_num_occurrences`, `strvec_find` (here `findTok`, with the C's
  `-1` sentinel modelled as `none`) and `strvec_slice` are not part of
  `src/`, so they are modelled from the spec's description of token
  sequences (ordered string sequences, sliced by half-open index ranges);
* the flat descriptor array `pipe_fds` is addressed by slot numbers
  (pipe `j` has its read end in slot `2*j` and its write end in slot
  `2*j+1`); each process carries the list of slots currently open in it;
  `close` on a slot that is open removes it and succeeds or fails as the
  environment dictates, while `close` on a slot that is not open fails
  (`EBADF`) and changes nothing — the latter is also the deterministic
  reading chosen for the C program's closes of never-initialised slots;
* the outcomes of the fallible OS calls (`pipe`, `fork`, `close`, `dup2`,
  `wait`) and of the external collaborator `run_command` are supplied by
  an environment structure, so every control-flow path of the C code is
  reachable in the model;
* `fork` records the child's inherited open-slot list at the moment of
  the fork; the child's subsequent behaviour (the `child_pid == 0` branch
  of the C code plus `run_piped_command`) is a pure function of that list
  and the child's environment, returning the traces of attempted closes
  and duplications, whether `run_command` was reached, and the exit
  status.
-/

namespace Shell

/-- Which standard stream a `dup2` call targets. -/
inductive StdFd where
  | stdinFd : StdFd
  | stdoutFd : StdFd
deriving DecidableEq

/-- Modelled from the spec: `strvec_num_occurrences` counts the occurrences
of a token in the token sequence. -/
def strvec_num_occurrences (v : List String) (s : String) : Nat :=
  v.count s

/-- Modelled from the spec: `strvec_slice v start stop` copies the half-open
index range `[start, stop)` of the token sequence. -/
def strvec_slice (v : List String) (start stop : Nat) : List String :=
  (v.drop start).take (stop - start)

/-- Modelled from the spec: `strvec_find` returns the index of the first
occurrence of a token, the C's `-1` sentinel being `none`. -/
def findTok (s : String) : List String → Option Nat
  | [] => none
  | t :: ts => if t == s then some 0 else (findTok s ts).map (· + 1)

/-- The segmentation loop of `run_pipelined_commands`
(`src/shell_funcs.c` lines 104–139): `cur_tokens` is the suffix of
`tokens` starting at `start_idx`; each iteration slices off the prefix of
`cur_tokens` before the first `"|"` and advances `start_idx` past that
delimiter; the final iteration emits the remaining suffix whole. -/
def segmentFrom (tokens : List String) (start : Nat) : List (List String) :=
  match h : findTok "|" (tokens.drop start) with
  | none => [tokens.drop start]
  | some p => (tokens.drop start).take p :: segmentFrom tokens (start + p + 1)
termination_by tokens.length - start
decreasing_by
  have key : ∀ (l : List String) (q : Nat), findTok "|" l = some q → q < l.length := by
    intro l
    induction l with
    | nil => intro q hq; simp [findTok] at hq
    | cons t ts ih =>
      intro q hq
      by_cases ht : t == "|"
      · simp [findTok, ht] at hq
        simp
        omega
      · simp [findTok, ht] at hq
        obtain ⟨r, hr, rfl⟩ := hq
        have := ih r hr
        simp
        omega
  have hlt := key _ _ h
  simp at hlt
  omega

/-- Segmentation step of `run_pipelined_commands`: the whole token
sequence is segmented starting from index 0. -/
def run_segment_tokens (tokens : List String) : List (List String) :=
  segmentFrom tokens 0

/-- Reinsertion of the delimiter between consecutive segments, the
round-trip direction of the segmentation claim. -/
def rejoinPipes : List (List String) → List String
  | [] => []
  | [s] => s
  | s :: ss => s ++ "|" :: rejoinPipes ss

/-- The helper `close_all` of `src/shell_funcs.c` (lines 20–29): iterate
over all `n` descriptors, attempt to close each one, set the return value
to 1 on any failure but keep going.  `closeOk i` is the outcome the OS
gives the close of `fds[i]`; the second component is the trace of
attempted indices. -/
def close_all (closeOk : Nat → Bool) (n : Nat) : Nat × List Nat :=
  (List.range n).foldl
    (fun acc i => (if closeOk i then acc.1 else 1, acc.2 ++ [i])) (0, [])

/-- Environment of a single child process: outcomes of its `close` and
`dup2` calls per descriptor slot, whether `run_command` replaces the
process image (`execs`), the exit status of the external program when it
does, and the value `run_command` returns when it does not. -/
structure ChildEnv where
  closeOk : Nat → Bool
  dup2Ok : Nat → Bool
  execs : Bool
  execStatus : Nat
  runRet : Int

/-- Environment of one invocation of `run_pipelined_commands`: outcomes
of `malloc`, the `strvec_slice` calls, and of `pipe`/`fork` per loop
iteration, `close` per slot in the parent, `wait` per wait call, plus the
environment each child will run under. -/
structure OsEnv where
  mallocOk : Bool
  sliceOk : Bool
  pipeOk : Nat → Bool
  forkOk : Nat → Bool
  pCloseOk : Nat → Bool
  waitOk : Nat → Bool
  child : Nat → ChildEnv

/-- One `close(2)` call on descriptor slot `s` of a process whose open
slots are `opens`: an open slot is removed (Linux semantics even when the
close reports failure) with outcome `ok s`; a slot that is not open fails
with `EBADF` and changes nothing. -/
def closeCall (ok : Nat → Bool) (opens : List Nat) (s : Nat) : Bool × List Nat :=
  if s ∈ opens then (ok s, opens.erase s) else (false, opens)

/-- Trace state of a child process: its open slots, the slots it has
attempted to close, and the `dup2` attempts (target stream, source slot). -/
structure CState where
  opens : List Nat
  closes : List Nat
  dups : List (StdFd × Nat)
deriving DecidableEq

/-- One redirection block of `run_piped_command`
(`src/shell_funcs.c` lines 46–57 and 59–70): if the index is not `-1`,
`dup2` the slot onto the standard stream (recorded as an attempt), fail
out on `dup2` failure, otherwise close the original slot and fail out on
close failure. -/
def redirectStep (cenv : ChildEnv) (st : CState) (idx : Int) (fd : StdFd) :
    Bool × CState :=
  if idx = -1 then (true, st)
  else
    let s := idx.toNat
    let st1 : CState := ⟨st.opens, st.closes, st.dups ++ [(fd, s)]⟩
    if s ∈ st1.opens ∧ cenv.dup2Ok s = true then
      let c := closeCall cenv.closeOk st1.opens s
      (c.1, ⟨c.2, st1.closes ++ [s], st1.dups⟩)
    else (false, st1)

/-- Outcome of `run_piped_command`: either it returns an `int` (the
`Bool` records whether `run_command` was invoked before returning), or
`run_command` replaced the process image and the process will exit with
the external program's status. -/
inductive RpcOutcome where
  | ret : Int → Bool → RpcOutcome
  | execed : Nat → RpcOutcome
deriving DecidableEq

/-- The function `run_piped_command` of `src/shell_funcs.c` (lines
45–79): redirect standard input from `pipes[in_idx]` unless `in_idx` is
`-1`, then standard output onto `pipes[out_idx]` unless `out_idx` is
`-1` (each time closing the original descriptor), then invoke
`run_command`, which either execs (never returns) or returns; a returned
`1` yields `return 1`, anything else reaches the trailing `return 0`. -/
def run_piped_command (cenv : ChildEnv) (opens0 : List Nat)
    (in_idx out_idx : Int) : RpcOutcome × CState :=
  let st0 : CState := ⟨opens0, [], []⟩
  let r1 := redirectStep cenv st0 in_idx StdFd.stdinFd
  if r1.1 = false then (RpcOutcome.ret 1 false, r1.2)
  else
    let r2 := redirectStep cenv r1.2 out_idx StdFd.stdoutFd
    if r2.1 = false then (RpcOutcome.ret 1 false, r2.2)
    else if cenv.execs then (RpcOutcome.execed cenv.execStatus, r2.2)
    else if cenv.runRet = 1 then (RpcOutcome.ret 1 true, r2.2)
    else (RpcOutcome.ret 0 true, r2.2)

/-- Observable behaviour of one child process: attempted closes and
`dup2`s, whether `run_command` was reached, whether it execed, the exit
status of the child, and the slots still open when it exits or execs. -/
structure ChildResult where
  closes : List Nat
  dups : List (StdFd × Nat)
  ranCommand : Bool
  execed : Bool
  exitStatus : Nat
  opensEnd : List Nat
deriving DecidableEq

/-- Shared tail of the three child branches of `run_pipelined_commands`
(`src/shell_funcs.c` lines 194–197, 203–206, 216–219): call
`run_piped_command` and then compare its return value against `-1` —
`exit(1)` if it equals `-1`, otherwise fall through to `exit(0)`. -/
def child_finish (cenv : ChildEnv) (pre : List Nat) (opens : List Nat)
    (in_idx out_idx : Int) : ChildResult :=
  let r := run_piped_command cenv opens in_idx out_idx
  match r.1 with
  | RpcOutcome.execed s => ⟨pre ++ r.2.closes, r.2.dups, true, true, s, r.2.opens⟩
  | RpcOutcome.ret v ran =>
      ⟨pre ++ r.2.closes, r.2.dups, ran, false, if v = -1 then 1 else 0, r.2.opens⟩

/-- The `child_pid == 0` branch of `run_pipelined_commands`
(`src/shell_funcs.c` lines 177–222) for command `i` of `nc` commands: the
first command closes `pipe_fds[2*i]` (`exit(1)` on failure) and runs with
`in_idx = -1`, `out_idx = 1`; the last command runs with
`in_idx = 2*(ncommands-1)-2`, `out_idx = -1`; a middle command closes
`pipe_fds[2*i]` and runs with `in_idx = 2*i-2`, `out_idx = 2*i+1`.
Note the C tests `i == 0` before `i == ncommands-1`, so a 1-command
pipeline takes the first branch. -/
def child_body (cenv : ChildEnv) (opens0 : List Nat) (i nc : Nat) : ChildResult :=
  if i = 0 then
    let c := closeCall cenv.closeOk opens0 (2 * i)
    if c.1 = false then ⟨[2 * i], [], false, false, 1, c.2⟩
    else child_finish cenv [2 * i] c.2 (-1) 1
  else if i = nc - 1 then
    child_finish cenv [] opens0 (2 * ((nc : Int) - 1) - 2) (-1)
  else
    let c := closeCall cenv.closeOk opens0 (2 * i)
    if c.1 = false then ⟨[2 * i], [], false, false, 1, c.2⟩
    else child_finish cenv [2 * i] c.2 (2 * (i : Int) - 2) (2 * (i : Int) + 1)

/-- Parent-side loop state of `run_pipelined_commands`: slots open in the
parent, the parent's attempted closes, the number of successful `pipe`
calls, and the spawned children with the slot list each inherited. -/
structure PLoop where
  opens : List Nat
  pcloses : List Nat
  pipes : Nat
  spawned : List (Nat × List Nat)
deriving DecidableEq

/-- Loop state before the first iteration. -/
def initLoop : PLoop := ⟨[], [], 0, []⟩

/-- A parent-side `close` of slot `s`, recording the attempt. -/
def parentClose (env : OsEnv) (st : PLoop) (s : Nat) : Bool × PLoop :=
  let c := closeCall env.pCloseOk st.opens s
  (c.1, ⟨c.2, st.pcloses ++ [s], st.pipes, st.spawned⟩)

/-- One iteration `i` of the spawn loop of `run_pipelined_commands`
(`src/shell_funcs.c` lines 147–250): create pipe `i` unless `i` is the
last command (`return 1` on failure); `fork` — on fork failure close
`pipe_fds[2*i]` and `pipe_fds[2*i+1]` (each close failure also short
circuits to `return 1`) and `return 1`; on success record the child with
its inherited slots, then in the parent close `pipe_fds[2*i-2]` when
`i != 0` and `pipe_fds[2*i+1]` when `i != ncommands-1`, returning 1 on
any close failure.  `Except.error` carries the state at an early
`return 1`. -/
def spawn_iter (env : OsEnv) (nc : Nat) (st : PLoop) (i : Nat) :
    Except PLoop PLoop :=
  let mk : Except PLoop PLoop :=
    if i ≠ nc - 1 then
      if env.pipeOk i then
        Except.ok ⟨st.opens ++ [2 * i, 2 * i + 1], st.pcloses, st.pipes + 1, st.spawned⟩
      else Except.error st
    else Except.ok st
  match mk with
  | Except.error st1 => Except.error st1
  | Except.ok st1 =>
    if env.forkOk i then
      let st2 : PLoop := ⟨st1.opens, st1.pcloses, st1.pipes,
        st1.spawned ++ [(i, st1.opens)]⟩
      let ar : Bool × PLoop :=
        if i ≠ 0 then parentClose env st2 (2 * i - 2) else (true, st2)
      if ar.1 = false then Except.error ar.2
      else
        let aw : Bool × PLoop :=
          if i ≠ nc - 1 then parentClose env ar.2 (2 * i + 1) else (true, ar.2)
        if aw.1 = false then Except.error aw.2
        else Except.ok aw.2
    else
      let c1 := parentClose env st1 (2 * i)
      if c1.1 = false then Except.error c1.2
      else Except.error (parentClose env c1.2 (2 * i + 1)).2

/-- The spawn loop after `k` iterations (iterations `0 … k-1`). -/
def spawn_loop (env : OsEnv) (nc : Nat) : Nat → Except PLoop PLoop
  | 0 => Except.ok initLoop
  | k + 1 =>
    match spawn_loop env nc k with
    | Except.error st => Except.error st
    | Except.ok st => spawn_iter env nc st k

/-- The wait loop of `run_pipelined_commands` (`src/shell_funcs.c` lines
253–259): `count` remaining `wait(NULL)` calls starting at call index
`j`; a failing wait makes the function `return 1` immediately.  Returns
the number of wait calls performed and whether all of them succeeded. -/
def wait_loop (env : OsEnv) : Nat → Nat → Nat × Bool
  | 0, _ => (0, true)
  | k + 1, j =>
    if env.waitOk j then
      let r := wait_loop env k (j + 1)
      (r.1 + 1, r.2)
    else (1, false)

/-- Observable behaviour of one invocation of `run_pipelined_commands`. -/
structure RunTrace where
  retVal : Nat
  pcloses : List Nat
  opensEnd : List Nat
  spawned : List (Nat × List Nat)
  waitCalls : Nat
  pipes : Nat
  segments : List (List String)
deriving DecidableEq

/-- The quantity `num_pipes` of `src/shell_funcs.c` line 83. -/
def numPipes (tokens : List String) : Nat := strvec_num_occurrences tokens "|"

/-- The quantity `ncommands` of `src/shell_funcs.c` line 84. -/
def ncommands (tokens : List String) : Nat := numPipes tokens + 1

/-- The function `run_pipelined_commands` of `src/shell_funcs.c` (lines
81–265): `malloc` and token-slicing failures return 1 before any pipe or
process exists; then the spawn loop runs for `ncommands` iterations; on
its early `return 1` no wait call happens; otherwise `ncommands`
`wait(NULL)` calls follow, any failure returning 1, and the function
returns 0. -/
def run_pipelined_commands (env : OsEnv) (tokens : List String) : RunTrace :=
  if env.mallocOk = false then ⟨1, [], [], [], 0, 0, []⟩
  else if env.sliceOk = false then ⟨1, [], [], [], 0, 0, []⟩
  else
    let nc := ncommands tokens
    let segs := run_segment_tokens tokens
    match spawn_loop env nc nc with
    | Except.error st => ⟨1, st.pcloses, st.opens, st.spawned, 0, st.pipes, segs⟩
    | Except.ok st =>
      let w := wait_loop env nc 0
      ⟨if w.2 then 0 else 1, st.pcloses, st.opens, st.spawned, w.1, st.pipes, segs⟩

/-- The behaviour of spawned child `i` of a run: its recorded inherited
slot list fed into `child_body`; `none` when command `i` was never
forked. -/
def child_result (env : OsEnv) (tokens : List String) (i : Nat) :
    Option ChildResult :=
  match (run_pipelined_commands env tokens).spawned.find? (fun p => p.1 == i) with
  | some p => some (child_body (env.child i) p.2 i (ncommands tokens))
  | none => none

/-- All parent-side OS calls of a run succeed. -/
def okParentEnv (env : OsEnv) : Prop :=
  env.mallocOk = true ∧ env.sliceOk = true ∧ (∀ i, env.pipeOk i = true) ∧
  (∀ i, env.forkOk i = true) ∧ (∀ s, env.pCloseOk s = true) ∧
  (∀ j, env.waitOk j = true)

/-- All OS calls of a run succeed, in the parent and in every child. -/
def okEnv (env : OsEnv) : Prop :=
  okParentEnv env ∧ (∀ i s, (env.child i).closeOk s = true) ∧
  (∀ i s, (env.child i).dup2Ok s = true)

/-- Expected slot list inherited by child `i` in an error-free run of
`nc ≥ 2` commands. -/
def expInh (nc i : Nat) : List Nat :=
  if i = 0 then [2 * i, 2 * i + 1]
  else if i = nc - 1 then [2 * i - 2]
  else [2 * i - 2, 2 * i, 2 * i + 1]

/-- Expected parent-side closes of iteration `i` in an error-free run. -/
def expIterCloses (nc i : Nat) : List Nat :=
  if i = 0 then [2 * i + 1]
  else if i = nc - 1 then [2 * i - 2]
  else [2 * i - 2, 2 * i + 1]

/-- Expected accumulated parent-side close trace after `k` iterations. -/
def expCloses (nc : Nat) : Nat → List Nat
  | 0 => []
  | k + 1 => expCloses nc k ++ expIterCloses nc k

/-- Expected spawned-children record after `k` iterations. -/
def expSpawned (nc : Nat) : Nat → List (Nat × List Nat)
  | 0 => []
  | k + 1 => expSpawned nc k ++ [(k, expInh nc k)]

/-- Expected parent-side open slots after `k` iterations. -/
def expOpens (nc k : Nat) : List Nat :=
  if k = 0 then [] else if k < nc then [2 * k - 2] else []

/-- Expected number of created pipes after `k` iterations. -/
def expPipes (nc k : Nat) : Nat := min k (nc - 1)

/-- Expected loop state after `k` iterations of an error-free run. -/
def expSt (nc k : Nat) : PLoop :=
  ⟨expOpens nc k, expCloses nc k, expPipes nc k, expSpawned nc k⟩

/-- The parent-side loop iteration in which slot `s` is closed in an
error-free run: the write end `2*j+1` of pipe `j` at iteration `j`, the
read end `2*j` of pipe `j` at iteration `j+1`. -/
def closingIter (s : Nat) : Nat :=
  if s % 2 = 1 then s / 2 else s / 2 + 1

def cenvAllOk : ChildEnv := ⟨fun _ => true, fun _ => true, true, 0, 0⟩

def envAllOk : OsEnv :=
  ⟨true, true, fun _ => true, fun _ => true, fun _ => true, fun _ => true, fun _ => cenvAllOk⟩

def envForkFail1 : OsEnv :=
  ⟨true, true, fun _ => true, fun i => decide (i ≠ 1), fun _ => true, fun _ => true,
   fun _ => cenvAllOk⟩

def envPipeFail1 : OsEnv :=
  ⟨true, true, fun i => decide (i = 0), fun _ => true, fun _ => true, fun _ => true,
   fun _ => cenvAllOk⟩

def envCloseFail1 : OsEnv :=
  ⟨true, true, fun _ => true, fun _ => true, fun s => decide (s ≠ 1), fun _ => true,
   fun _ => cenvAllOk⟩

def cenvRunnerFail : ChildEnv := ⟨fun _ => true, fun _ => true, false, 0, 1⟩

def cenvDup2Fail : ChildEnv := ⟨fun _ => true, fun _ => false, true, 0, 0⟩

def envRunnerFail : OsEnv :=
  ⟨true, true, fun _ => true, fun _ => true, fun _ => true, fun _ => true,
   fun _ => cenvRunnerFail⟩

def envDup2Fail : OsEnv :=
  ⟨true, true, fun _ => true, fun _ => true, fun _ => true, fun _ => true,
   fun _ => cenvDup2Fail⟩

def envFalseTrue : OsEnv :=
  ⟨true, true, fun _ => true, fun _ => true, fun _ => true, fun _ => true,
   fun i => ⟨fun _ => true, fun _ => true, true, if i = 0 then 1 else 0, 0⟩⟩

theorem findTok_lt {s : String} : ∀ {l : List String} {p : Nat},
    findTok s l = some p → p < l.length := by
  intro l
  induction l with
  | nil => intro p h; simp [findTok] at h
  | cons t ts ih =>
    intro p h
    by_cases ht : t == s
    · simp [findTok, ht] at h
      simp
      omega
    · simp [findTok, ht] at h
      obtain ⟨q, hq, rfl⟩ := h
      have := ih hq
      simp
      omega

theorem findTok_none_count {s : String} : ∀ {l : List String},
    findTok s l = none → l.count s = 0 := by
  intro l
  induction l with
  | nil => intro _; simp
  | cons t ts ih =>
    intro h
    by_cases ht : t == s
    · simp [findTok, ht] at h
    · simp [findTok, ht, Option.map_eq_none'] at h
      have hne : t ≠ s := by
        intro he; exact ht (by simp [he])
      simp [List.count_cons, ih h, hne]

theorem findTok_decomp {s : String} : ∀ {l : List String} {p : Nat},
    findTok s l = some p →
      l = l.take p ++ s :: l.drop (p + 1) ∧ (l.take p).count s = 0 := by
  intro l
  induction l with
  | nil => intro p h; simp [findTok] at h
  | cons t ts ih =>
    intro p h
    by_cases ht : t == s
    · simp [findTok, ht] at h
      have hts : t = s := by
        have := eq_of_beq ht
        exact this
      subst hts
      subst h
      simp
    · simp [findTok, ht] at h
      obtain ⟨q, hq, rfl⟩ := h
      obtain ⟨hd, hc⟩ := ih hq
      have hne : t ≠ s := by
        intro he; exact ht (by simp [he])
      constructor
      · calc t :: ts = t :: (ts.take q ++ s :: ts.drop (q + 1)) := by rw [← hd]
          _ = (t :: ts).take (q + 1) ++ s :: (t :: ts).drop (q + 1 + 1) := by simp
      · simp [List.count_cons, hc, hne]

theorem rejoinPipes_cons_of_ne_nil (s : List String) {ss : List (List String)}
    (h : ss ≠ []) : rejoinPipes (s :: ss) = s ++ "|" :: rejoinPipes ss := by
  cases ss with
  | nil => exact absurd rfl h
  | cons a ss => rfl

theorem segmentFrom_length : ∀ (n : Nat) (tokens : List String) (start : Nat),
    tokens.length - start ≤ n →
    (segmentFrom tokens start).length = (tokens.drop start).count "|" + 1 := by
  intro n
  induction n with
  | zero =>
    intro tokens start hle
    have hdrop : tokens.drop start = [] := by
      apply List.eq_nil_of_length_eq_zero
      simp
      omega
    rw [segmentFrom]
    split
    · simp [hdrop]
    · rename_i p hp
      rw [hdrop] at hp
      simp [findTok] at hp
  | succ n ih =>
    intro tokens start hle
    rw [segmentFrom]
    split
    · rename_i hf
      simp [findTok_none_count hf]
    · rename_i p hf
      have hlt := findTok_lt hf
      simp at hlt
      obtain ⟨hd, hc⟩ := findTok_decomp hf
      have hdd : (tokens.drop start).drop (p + 1) = tokens.drop (start + p + 1) := by
        rw [List.drop_drop]
        congr 1
      have hcount : (tokens.drop start).count "|"
          = (tokens.drop (start + p + 1)).count "|" + 1 := by
        conv_lhs => rw [hd]
        rw [List.count_append, List.count_cons_self, hdd, hc]
        omega
      have hrec := ih tokens (start + p + 1) (by omega)
      simp [hrec, hcount]

theorem segmentFrom_ne_nil (tokens : List String) (start : Nat) :
    segmentFrom tokens start ≠ [] := by
  have := segmentFrom_length (tokens.length - start) tokens start (by omega)
  intro h
  rw [h] at this
  simp at this

theorem segmentFrom_rejoin : ∀ (n : Nat) (tokens : List String) (start : Nat),
    tokens.length - start ≤ n →
    rejoinPipes (segmentFrom tokens start) = tokens.drop start := by
  intro n
  induction n with
  | zero =>
    intro tokens start hle
    have hdrop : tokens.drop start = [] := by
      apply List.eq_nil_of_length_eq_zero
      simp
      omega
    rw [segmentFrom]
    split
    · simp [rejoinPipes]
    · rename_i p hp
      rw [hdrop] at hp
      simp [findTok] at hp
  | succ n ih =>
    intro tokens start hle
    rw [segmentFrom]
    split
    · simp [rejoinPipes]
    · rename_i p hf
      have hlt := findTok_lt hf
      simp at hlt
      obtain ⟨hd, hc⟩ := findTok_decomp hf
      have hdd : (tokens.drop start).drop (p + 1) = tokens.drop (start + p + 1) := by
        rw [List.drop_drop]
        congr 1
      rw [rejoinPipes_cons_of_ne_nil _ (segmentFrom_ne_nil tokens (start + p + 1))]
      rw [ih tokens (start + p + 1) (by omega)]
      conv_rhs => rw [hd]
      rw [hdd]

theorem close_all_foldl (closeOk : Nat → Bool) : ∀ (l : List Nat) (r : Nat) (t : List Nat),
    l.foldl (fun acc i => (if closeOk i then acc.1 else 1, acc.2 ++ [i])) (r, t)
      = (if l.all closeOk then r else 1, t ++ l) := by
  intro l
  induction l with
  | nil => intro r t; simp
  | cons a l ih =>
    intro r t
    simp only [List.foldl_cons, List.all_cons]
    rw [ih]
    by_cases ha : closeOk a
    · simp [ha]
    · simp [ha]

/-- C10: for every descriptor array of length `n`, `close_all` attempts
to close every one of the `n` descriptors even if an earlier close fails
(the attempt trace is exactly `0, 1, …, n-1`), and it returns 0 exactly
when every close succeeds, 1 exactly when at least one close fails. -/
theorem C10_close_all_attempts_all (closeOk : Nat → Bool) (n : Nat) :
    (close_all closeOk n).2 = List.range n ∧
    ((close_all closeOk n).1 = 0 ↔ ∀ i < n, closeOk i = true) ∧
    ((close_all closeOk n).1 = 1 ↔ ∃ i < n, closeOk i = false) := by
  have hall : ((List.range n).all closeOk = true) ↔ (∀ i < n, closeOk i = true) := by
    simp [List.all_eq_true]
  unfold close_all
  rw [close_all_foldl]
  by_cases h : ∀ i < n, closeOk i = true
  · rw [if_pos (hall.mpr h)]
    refine ⟨by simp, ⟨fun _ => h, fun _ => rfl⟩, fun h0 => absurd h0 (by simp), ?_⟩
    rintro ⟨i, hi, hf⟩
    rw [h i hi] at hf
    cases hf
  · rw [if_neg fun hc => h (hall.mp hc)]
    push_neg at h
    obtain ⟨i, hi, hne⟩ := h
    exact ⟨by simp, ⟨fun h1 => absurd h1 (by simp), fun hc => absurd (hc i hi) hne⟩,
           fun _ => ⟨i, hi, by simpa using hne⟩, fun _ => rfl⟩

/-- C2: for every token sequence with `k` occurrences of the delimiter
`"|"`, the segmentation step of `run_pipelined_commands` produces exactly
`k + 1` segments, and reinserting the delimiter between consecutive
segments reproduces the original sequence exactly. -/
theorem C2_segmentation_roundtrip (tokens : List String) :
    (run_segment_tokens tokens).length = strvec_num_occurrences tokens "|" + 1 ∧
    rejoinPipes (run_segment_tokens tokens) = tokens := by
  constructor
  · have := segmentFrom_length tokens.length tokens 0 (by omega)
    simpa [run_segment_tokens, strvec_num_occurrences] using this
  · have := segmentFrom_rejoin tokens.length tokens 0 (by omega)
    simpa [run_segment_tokens] using this


theorem spawn_iter_exp (env : OsEnv) (nc : Nat) (hnc : 2 ≤ nc) (k : Nat) (hk : k < nc)
    (hpipe : env.pipeOk k = true) (hfork : env.forkOk k = true)
    (hclose : ∀ s, env.pCloseOk s = true) :
    spawn_iter env nc (expSt nc k) k = Except.ok (expSt nc (k + 1)) := by
  rcases Nat.eq_zero_or_pos k with hk0 | hkpos
  · subst hk0
    have hne : (0 : Nat) ≠ nc - 1 := by omega
    have h1lt : 1 < nc := by omega
    have hmin : min 1 (nc - 1) = 1 := by omega
    simp only [spawn_iter, expSt, expOpens, expCloses, expIterCloses, expSpawned, expInh,
      expPipes, parentClose, closeCall, hne, hpipe, hfork, if_true, if_false,
      ne_eq, not_true_eq_false, not_false_eq_true, ite_true, ite_false]
    simp [hclose 1, hne, h1lt, hmin]
  · have hk0 : k ≠ 0 := by omega
    rcases Nat.lt_or_ge k (nc - 1) with hmid | hlast
    · -- middle iteration
      have hkne : k ≠ nc - 1 := by omega
      have hklt : k < nc := by omega
      have hsucclt : k + 1 < nc := by omega
      have ee1 : [2 * k - 2, 2 * k, 2 * k + 1].erase (2 * k - 2) = [2 * k, 2 * k + 1] :=
        List.erase_cons_head _ _
      have ee2 : [2 * k, 2 * k + 1].erase (2 * k + 1) = [2 * k] := by
        rw [List.erase_cons_tail (by simp), List.erase_cons_head]
      have hmin2 : min k (nc - 1) + 1 = min (k + 1) (nc - 1) := by omega
      simp only [spawn_iter, expSt, expOpens, expCloses, expIterCloses, expSpawned, expInh,
        expPipes, parentClose, closeCall, hk0, hkne, hpipe, hfork, hklt, hsucclt,
        ne_eq, ite_false, ite_true, if_true, if_false, not_false_eq_true]
      simp [hk0, hkne, hklt, hsucclt, ee1, ee2, hclose, hmin2, List.append_assoc]
      omega
    · -- last iteration: k = nc - 1
      have hnn : ¬(k ≠ nc - 1) := by omega
      have hklt2 : k < nc := by omega
      have hic : expIterCloses nc k = [2 * k - 2] := by
        unfold expIterCloses
        rw [if_neg hk0, if_pos (by omega)]
      have hinh : expInh nc k = [2 * k - 2] := by
        unfold expInh
        rw [if_neg hk0, if_pos (by omega)]
      have hopk : expOpens nc k = [2 * k - 2] := by
        unfold expOpens
        rw [if_neg hk0, if_pos hklt2]
      have hopk1 : expOpens nc (k + 1) = [] := by
        unfold expOpens
        rw [if_neg (by omega), if_neg (by omega)]
      have hmin3 : min k (nc - 1) = min (k + 1) (nc - 1) := by omega
      simp only [spawn_iter, expSt, expPipes, expCloses, expSpawned, parentClose, closeCall,
        hic, hinh, hopk, hopk1, hnn, hfork, ne_eq, not_false_eq_true, ite_true,
        ite_false, if_true, if_false, not_true_eq_false]
      simp [hk0, hclose, hmin3, List.erase_cons_head]

theorem spawn_loop_exp (env : OsEnv) (nc : Nat) (hnc : 2 ≤ nc)
    (hclose : ∀ s, env.pCloseOk s = true) :
    ∀ k, k ≤ nc → (∀ i, i < k → env.pipeOk i = true) →
      (∀ i, i < k → env.forkOk i = true) →
      spawn_loop env nc k = Except.ok (expSt nc k) := by
  intro k
  induction k with
  | zero =>
    intro _ _ _
    simp [spawn_loop, initLoop, expSt, expOpens, expCloses, expSpawned, expPipes]
  | succ k ih =>
    intro hk hp hf
    have h1 := ih (by omega) (fun i hi => hp i (by omega)) (fun i hi => hf i (by omega))
    simp only [spawn_loop, h1]
    exact spawn_iter_exp env nc hnc k (by omega) (hp k (by omega)) (hf k (by omega)) hclose


theorem child_body_first (cenv : ChildEnv) (hc : ∀ s, cenv.closeOk s = true)
    (hd : ∀ s, cenv.dup2Ok s = true) (nc : Nat) :
    (child_body cenv [0, 1] 0 nc).closes = [0, 1] ∧
    (child_body cenv [0, 1] 0 nc).dups = [(StdFd.stdoutFd, 1)] ∧
    (child_body cenv [0, 1] 0 nc).opensEnd = [] := by
  unfold child_body child_finish run_piped_command redirectStep closeCall
  cases hE : cenv.execs
  · by_cases hR : cenv.runRet = 1 <;> simp [hE, hR, hc, hd]
  · simp [hE, hc, hd]

theorem child_body_middle (cenv : ChildEnv) (hc : ∀ s, cenv.closeOk s = true)
    (hd : ∀ s, cenv.dup2Ok s = true) (i nc : Nat) (h0 : i ≠ 0) (hL : i ≠ nc - 1) :
    (child_body cenv [2 * i - 2, 2 * i, 2 * i + 1] i nc).closes
        = [2 * i, 2 * i - 2, 2 * i + 1] ∧
    (child_body cenv [2 * i - 2, 2 * i, 2 * i + 1] i nc).dups
        = [(StdFd.stdinFd, 2 * i - 2), (StdFd.stdoutFd, 2 * i + 1)] ∧
    (child_body cenv [2 * i - 2, 2 * i, 2 * i + 1] i nc).opensEnd = [] := by
  have h1 : 1 ≤ i := by omega
  have htn1 : (2 * (i : Int) - 2).toNat = 2 * i - 2 := by omega
  have htn2 : (2 * (i : Int) + 1).toNat = 2 * i + 1 := by omega
  have hne1 : (2 * (i : Int) - 2) ≠ -1 := by omega
  have hne2 : (2 * (i : Int) + 1) ≠ -1 := by omega
  have e1 : [2 * i - 2, 2 * i, 2 * i + 1].erase (2 * i) = [2 * i - 2, 2 * i + 1] := by
    rw [List.erase_cons_tail (by simp <;> omega), List.erase_cons_head]
  have e2 : [2 * i - 2, 2 * i + 1].erase (2 * i - 2) = [2 * i + 1] :=
    List.erase_cons_head _ _
  have e3 : [2 * i + 1].erase (2 * i + 1) = [] := List.erase_cons_head _ _
  have m1 : 2 * i ∈ [2 * i - 2, 2 * i, 2 * i + 1] := by simp
  unfold child_body child_finish run_piped_command redirectStep closeCall
  cases hE : cenv.execs
  · by_cases hR : cenv.runRet = 1 <;>
      simp [hE, hR, hc, hd, h0, hL, htn1, htn2, hne1, hne2, e1, e2, e3, m1]
  · simp [hE, hc, hd, h0, hL, htn1, htn2, hne1, hne2, e1, e2, e3, m1]

theorem child_body_last (cenv : ChildEnv) (hc : ∀ s, cenv.closeOk s = true)
    (hd : ∀ s, cenv.dup2Ok s = true) (nc : Nat) (hnc : 2 ≤ nc) :
    (child_body cenv [2 * (nc - 1) - 2] (nc - 1) nc).closes = [2 * (nc - 1) - 2] ∧
    (child_body cenv [2 * (nc - 1) - 2] (nc - 1) nc).dups
        = [(StdFd.stdinFd, 2 * (nc - 1) - 2)] ∧
    (child_body cenv [2 * (nc - 1) - 2] (nc - 1) nc).opensEnd = [] := by
  have h0 : nc - 1 ≠ 0 := by omega
  have htn : (2 * ((nc : Int) - 1) - 2).toNat = 2 * (nc - 1) - 2 := by omega
  have hne : (2 * ((nc : Int) - 1) - 2) ≠ -1 := by omega
  have e1 : [2 * (nc - 1) - 2].erase (2 * (nc - 1) - 2) = [] := List.erase_cons_head _ _
  unfold child_body child_finish run_piped_command redirectStep closeCall
  cases hE : cenv.execs
  · by_cases hR : cenv.runRet = 1 <;> simp [hE, hR, hc, hd, h0, htn, hne, e1]
  · simp [hE, hc, hd, h0, htn, hne, e1]


theorem wait_loop_all_ok (env : OsEnv) (hw : ∀ j, env.waitOk j = true) :
    ∀ k j, wait_loop env k j = (k, true) := by
  intro k
  induction k with
  | zero => intro j; rfl
  | succ k ih => intro j; simp [wait_loop, hw j, ih (j + 1)]

theorem run_ok_eq (env : OsEnv) (tokens : List String) (h : okParentEnv env)
    (hN : 1 ≤ numPipes tokens) :
    run_pipelined_commands env tokens =
      ⟨0, expCloses (ncommands tokens) (ncommands tokens), [],
       expSpawned (ncommands tokens) (ncommands tokens), ncommands tokens,
       ncommands tokens - 1, run_segment_tokens tokens⟩ := by
  obtain ⟨hm, hs, hp, hf, hc, hw⟩ := h
  have h2 : 2 ≤ ncommands tokens := by unfold ncommands; omega
  have hloop := spawn_loop_exp env (ncommands tokens) h2 hc (ncommands tokens) (le_refl _)
    (fun i _ => hp i) (fun i _ => hf i)
  unfold run_pipelined_commands
  rw [hm, hs]
  simp only [Bool.true_eq_false, if_false, hloop, wait_loop_all_ok env hw]
  have hopen : expOpens (ncommands tokens) (ncommands tokens) = [] := by
    unfold expOpens
    rw [if_neg (by omega), if_neg (by omega)]
  have hpip : expPipes (ncommands tokens) (ncommands tokens) = ncommands tokens - 1 := by
    unfold expPipes; omega
  simp [expSt, hopen, hpip]

theorem expSpawned_eq_map (nc : Nat) :
    ∀ k, expSpawned nc k = (List.range k).map (fun i => (i, expInh nc i)) := by
  intro k
  induction k with
  | zero => rfl
  | succ k ih => rw [expSpawned, ih, List.range_succ, List.map_append]; rfl

theorem length_expSpawned (nc k : Nat) : (expSpawned nc k).length = k := by
  rw [expSpawned_eq_map]; simp

theorem mem_expSpawned (nc k : Nat) {p : Nat × List Nat} (hp : p ∈ expSpawned nc k) :
    p.1 < k ∧ p.2 = expInh nc p.1 := by
  rw [expSpawned_eq_map] at hp
  simp only [List.mem_map, List.mem_range] at hp
  obtain ⟨i, hi, rfl⟩ := hp
  exact ⟨hi, rfl⟩

theorem expCloses_eq_flatMap (nc : Nat) :
    ∀ k, expCloses nc k = (List.range k).flatMap (expIterCloses nc) := by
  intro k
  induction k with
  | zero => rfl
  | succ k ih => rw [expCloses, ih, List.range_succ, List.flatMap_append]; simp

theorem sum_map_range_ite (n t : Nat) :
    ((List.range n).map (fun i => if i = t then 1 else 0)).sum = if t < n then 1 else 0 := by
  induction n with
  | zero => simp
  | succ n ih =>
    rw [List.range_succ, List.map_append, List.sum_append, ih]
    simp only [List.map_cons, List.map_nil, List.sum_cons, List.sum_nil]
    split_ifs <;> omega

theorem count_expIterCloses (nc : Nat) (hnc : 2 ≤ nc) {i s : Nat} (hi : i < nc)
    (hs : s < 2 * (nc - 1)) :
    (expIterCloses nc i).count s = if i = closingIter s then 1 else 0 := by
  unfold expIterCloses closingIter
  split_ifs <;>
    simp only [List.count_cons, List.count_singleton, List.count_nil, beq_iff_eq] <;>
    split_ifs <;> omega

theorem count_expCloses_full (nc : Nat) (hnc : 2 ≤ nc) {s : Nat} (hs : s < 2 * (nc - 1)) :
    (expCloses nc nc).count s = 1 := by
  rw [expCloses_eq_flatMap, List.count_flatMap]
  have hmap : (List.range nc).map (List.count s ∘ expIterCloses nc)
      = (List.range nc).map (fun i => if i = closingIter s then 1 else 0) := by
    apply List.map_congr_left
    intro i hi
    simp only [Function.comp_apply]
    exact count_expIterCloses nc hnc (List.mem_range.mp hi) hs
  rw [hmap, sum_map_range_ite]
  have hlt : closingIter s < nc := by unfold closingIter; split_ifs <;> omega
  simp [hlt]


theorem spawn_loop_error_of_le (env : OsEnv) (nc : Nat) {k : Nat} {st : PLoop}
    (h : spawn_loop env nc k = Except.error st) :
    ∀ m, k ≤ m → spawn_loop env nc m = Except.error st := by
  intro m
  induction m with
  | zero =>
    intro hm
    have hk : k = 0 := by omega
    subst hk
    exact h
  | succ m ih =>
    intro hm
    by_cases hk : k = m + 1
    · subst hk; exact h
    · have := ih (by omega)
      simp [spawn_loop, this]



theorem spawn_iter_pipe_fail (env : OsEnv) (nc : Nat) (st : PLoop) (i : Nat)
    (hL : i ≠ nc - 1) (hp : env.pipeOk i = false) :
    spawn_iter env nc st i = Except.error st := by
  unfold spawn_iter
  simp [hL, hp]

theorem spawn_iter_fork_fail (env : OsEnv) (nc : Nat) (st : PLoop) (i : Nat)
    (hpipe : i ≠ nc - 1 → env.pipeOk i = true) (hfork : env.forkOk i = false) :
    ∃ stE, spawn_iter env nc st i = Except.error stE ∧ stE.spawned = st.spawned := by
  unfold spawn_iter parentClose closeCall
  by_cases hL : i = nc - 1
  · rw [if_neg (show ¬(i ≠ nc - 1) by omega)]
    simp only [hfork, Bool.false_eq_true, if_false]
    split_ifs <;> exact ⟨_, rfl, rfl⟩
  · rw [if_pos hL, if_pos (hpipe hL)]
    simp only [hfork, Bool.false_eq_true, if_false]
    split_ifs <;> exact ⟨_, rfl, rfl⟩

theorem count_three_distinct {a b c s : Nat} (hab : a ≠ b) (hac : a ≠ c) (hbc : b ≠ c)
    (hs : s = a ∨ s = b ∨ s = c) : [a, b, c].count s = 1 := by
  simp only [List.count_cons, List.count_nil, beq_iff_eq]
  rcases hs with rfl | rfl | rfl <;> split_ifs <;> omega

theorem count_two_distinct {a b s : Nat} (hab : a ≠ b) (hs : s = a ∨ s = b) :
    [a, b].count s = 1 := by
  simp only [List.count_cons, List.count_nil, beq_iff_eq]
  rcases hs with rfl | rfl <;> split_ifs <;> omega

theorem count_one_self {a s : Nat} (hs : s = a) : [a].count s = 1 := by
  subst hs
  simp

theorem expInh_first (nc : Nat) : expInh nc 0 = [0, 1] := by
  unfold expInh
  norm_num

theorem expInh_last (nc : Nat) (hnc : 2 ≤ nc) : expInh nc (nc - 1) = [2 * (nc - 1) - 2] := by
  unfold expInh
  rw [if_neg (by omega), if_pos rfl]

theorem expInh_middle (nc i : Nat) (h0 : i ≠ 0) (hL : i ≠ nc - 1) :
    expInh nc i = [2 * i - 2, 2 * i, 2 * i + 1] := by
  unfold expInh
  rw [if_neg h0, if_neg hL]

/-- C1: for every pipeline of N ≥ 2 commands that completes without an OS
error, each of the 2(N-1) pipe endpoint slots is closed exactly once in the
parent, no endpoint remains open in the parent after the spawn loop, and
every child closes each endpoint it inherited open exactly once, ending
with no endpoint open. -/
theorem C1_pipeline_endpoints_closed_exactly_once (env : OsEnv) (tokens : List String)
    (h : okEnv env) (hN : 1 ≤ numPipes tokens) :
    (∀ s, s < 2 * numPipes tokens →
      (run_pipelined_commands env tokens).pcloses.count s = 1) ∧
    (run_pipelined_commands env tokens).opensEnd = [] ∧
    (∀ p ∈ (run_pipelined_commands env tokens).spawned, ∀ s ∈ p.2,
      ((child_body (env.child p.1) p.2 p.1 (ncommands tokens)).closes.count s = 1) ∧
      (child_body (env.child p.1) p.2 p.1 (ncommands tokens)).opensEnd = []) := by
  obtain ⟨hpar, hcc, hcd⟩ := h
  have h2 : 2 ≤ ncommands tokens := by unfold ncommands; omega
  have hnp : ncommands tokens - 1 = numPipes tokens := by unfold ncommands; omega
  rw [run_ok_eq env tokens hpar hN]
  refine ⟨?_, rfl, ?_⟩
  · intro s hs
    exact count_expCloses_full (ncommands tokens) h2 (by omega)
  · intro p hp s hs
    obtain ⟨hlt, hinh⟩ := mem_expSpawned _ _ hp
    by_cases hi0 : p.1 = 0
    · rw [hi0, expInh_first] at hinh
      rw [hinh, hi0]
      obtain ⟨hcl, hdu, hop⟩ :=
        child_body_first (env.child 0) (hcc 0) (hcd 0) (ncommands tokens)
      rw [hinh] at hs
      refine ⟨?_, hop⟩
      rw [hcl]
      simp only [List.mem_cons, List.not_mem_nil, or_false] at hs
      exact count_two_distinct (by omega) hs
    · by_cases hiL : p.1 = ncommands tokens - 1
      · rw [hiL, expInh_last _ h2] at hinh
        rw [hinh, hiL]
        obtain ⟨hcl, hdu, hop⟩ :=
          child_body_last (env.child (ncommands tokens - 1))
            (hcc (ncommands tokens - 1)) (hcd (ncommands tokens - 1))
            (ncommands tokens) h2
        rw [hinh] at hs
        refine ⟨?_, hop⟩
        rw [hcl]
        simp only [List.mem_cons, List.not_mem_nil, or_false] at hs
        exact count_one_self hs
      · rw [expInh_middle _ _ hi0 hiL] at hinh
        rw [hinh]
        obtain ⟨hcl, hdu, hop⟩ :=
          child_body_middle (env.child p.1) (hcc p.1) (hcd p.1) p.1 (ncommands tokens)
            hi0 hiL
        rw [hinh] at hs
        refine ⟨?_, hop⟩
        rw [hcl]
        simp only [List.mem_cons, List.not_mem_nil, or_false] at hs
        have hpos : 1 ≤ p.1 := by omega
        refine count_three_distinct (by omega) (by omega) (by omega) ?_
        omega

/-- C8: for every pipeline of N ≥ 2 commands, child i duplicates its
standard input from flat-array slot 2*i-2 exactly when i > 0 and its
standard output onto slot 2*i+1 exactly when i < N-1 (slot 2*i-2 is the
read end of channel i-1 and slot 2*i+1 the write end of channel i), and
performs no other duplication. -/
theorem C8_redirection_slot_indices (env : OsEnv) (tokens : List String)
    (h : okEnv env) (hN : 1 ≤ numPipes tokens) :
    ∀ p ∈ (run_pipelined_commands env tokens).spawned,
      (child_body (env.child p.1) p.2 p.1 (ncommands tokens)).dups =
        (if 0 < p.1 then [(StdFd.stdinFd, 2 * p.1 - 2)] else []) ++
        (if p.1 < ncommands tokens - 1 then [(StdFd.stdoutFd, 2 * p.1 + 1)] else []) := by
  obtain ⟨hpar, hcc, hcd⟩ := h
  have h2 : 2 ≤ ncommands tokens := by unfold ncommands; omega
  rw [run_ok_eq env tokens hpar hN]
  intro p hp
  obtain ⟨hlt, hinh⟩ := mem_expSpawned _ _ hp
  by_cases hi0 : p.1 = 0
  · rw [hi0, expInh_first] at hinh
    rw [hinh, hi0]
    obtain ⟨hcl, hdu, hop⟩ :=
      child_body_first (env.child 0) (hcc 0) (hcd 0) (ncommands tokens)
    rw [hdu, if_neg (by omega), if_pos (by omega)]
    norm_num
  · by_cases hiL : p.1 = ncommands tokens - 1
    · rw [hiL, expInh_last _ h2] at hinh
      rw [hinh, hiL]
      obtain ⟨hcl, hdu, hop⟩ :=
        child_body_last (env.child (ncommands tokens - 1))
          (hcc (ncommands tokens - 1)) (hcd (ncommands tokens - 1)) (ncommands tokens) h2
      rw [hdu, if_pos (by omega), if_neg (by omega)]
      simp
    · rw [expInh_middle _ _ hi0 hiL] at hinh
      rw [hinh]
      obtain ⟨hcl, hdu, hop⟩ :=
        child_body_middle (env.child p.1) (hcc p.1) (hcd p.1) p.1 (ncommands tokens) hi0 hiL
      rw [hdu, if_pos (by omega), if_pos (by omega)]
      simp
/-- C4 (amended): when fork fails at iteration i0 (earlier forks and all
pipe and close calls succeeding), run_pipelined_commands returns 1
immediately with i0 processes already spawned and performs zero wait
calls — the already-spawned processes are not reaped. -/
theorem C4_amended_fork_failure_no_reaping (env : OsEnv) (tokens : List String) (i0 : Nat)
    (hm : env.mallocOk = true) (hsl : env.sliceOk = true)
    (hpipe : ∀ i, env.pipeOk i = true)
    (hforkb : ∀ i, i < i0 → env.forkOk i = true)
    (hforkf : env.forkOk i0 = false)
    (hclose : ∀ s, env.pCloseOk s = true)
    (hnc : 2 ≤ ncommands tokens) (hi0 : i0 < ncommands tokens) :
    (run_pipelined_commands env tokens).retVal = 1 ∧
    (run_pipelined_commands env tokens).spawned.length = i0 ∧
    (run_pipelined_commands env tokens).waitCalls = 0 := by
  have hl := spawn_loop_exp env (ncommands tokens) hnc hclose i0 (by omega)
    (fun i _ => hpipe i) hforkb
  obtain ⟨stE, hE, hsp⟩ := spawn_iter_fork_fail env (ncommands tokens)
    (expSt (ncommands tokens) i0) i0 (fun _ => hpipe i0) hforkf
  have hloopE : spawn_loop env (ncommands tokens) (i0 + 1) = Except.error stE := by
    simp only [spawn_loop, hl, hE]
  have hfull := spawn_loop_error_of_le env (ncommands tokens) hloopE
    (ncommands tokens) (by omega)
  unfold run_pipelined_commands
  rw [hm, hsl]
  simp only [Bool.true_eq_false, if_false, hfull]
  simp [hsp, expSt, length_expSpawned]

/-- C7 (amended): when allocating channel i0 ≥ 1 fails,
run_pipelined_commands returns 1 immediately: the i0 processes already
spawned stay spawned and unreaped, the previous channel's read end
(slot 2*i0-2) remains open, and zero wait calls are performed — no
cleanup of the earlier channels happens. -/
theorem C7_amended_alloc_failure_no_cleanup (env : OsEnv) (tokens : List String) (i0 : Nat)
    (hm : env.mallocOk = true) (hsl : env.sliceOk = true)
    (hpipeb : ∀ i, i < i0 → env.pipeOk i = true)
    (hpipef : env.pipeOk i0 = false)
    (hfork : ∀ i, env.forkOk i = true)
    (hclose : ∀ s, env.pCloseOk s = true)
    (h1 : 1 ≤ i0) (hi0 : i0 ≤ ncommands tokens - 2) (hnc : 2 ≤ ncommands tokens) :
    (run_pipelined_commands env tokens).retVal = 1 ∧
    (run_pipelined_commands env tokens).spawned.length = i0 ∧
    (run_pipelined_commands env tokens).opensEnd = [2 * i0 - 2] ∧
    (run_pipelined_commands env tokens).waitCalls = 0 := by
  have hl := spawn_loop_exp env (ncommands tokens) hnc hclose i0 (by omega)
    hpipeb (fun i _ => hfork i)
  have hE := spawn_iter_pipe_fail env (ncommands tokens)
    (expSt (ncommands tokens) i0) i0 (by omega) hpipef
  have hloopE : spawn_loop env (ncommands tokens) (i0 + 1)
      = Except.error (expSt (ncommands tokens) i0) := by
    simp only [spawn_loop, hl, hE]
  have hfull := spawn_loop_error_of_le env (ncommands tokens) hloopE
    (ncommands tokens) (by omega)
  have hopens : expOpens (ncommands tokens) i0 = [2 * i0 - 2] := by
    unfold expOpens
    rw [if_neg (by omega), if_pos (by omega)]
  unfold run_pipelined_commands
  rw [hm, hsl]
  simp only [Bool.true_eq_false, if_false, hfull]
  simp [expSt, hopens, length_expSpawned]

/-- C9 (amended): a failing parent-side close aborts
run_pipelined_commands: with the close of slot 1 failing at iteration 0,
the function returns 1 immediately, having spawned only the first
command and performing zero wait calls. -/
theorem C9_amended_parent_close_fatal (env : OsEnv) (tokens : List String)
    (hm : env.mallocOk = true) (hsl : env.sliceOk = true)
    (hp0 : env.pipeOk 0 = true) (hf0 : env.forkOk 0 = true)
    (hc1 : env.pCloseOk 1 = false)
    (hN : 1 ≤ numPipes tokens) :
    (run_pipelined_commands env tokens).retVal = 1 ∧
    (run_pipelined_commands env tokens).spawned.length = 1 ∧
    (run_pipelined_commands env tokens).waitCalls = 0 := by
  have hnc : 2 ≤ ncommands tokens := by unfold ncommands; omega
  have he01 : [0, 1].erase 1 = [0] := rfl
  have hstep : spawn_iter env (ncommands tokens) initLoop 0
      = Except.error ⟨[0], [1], 1, [(0, [0, 1])]⟩ := by
    unfold spawn_iter parentClose closeCall initLoop
    rw [if_pos (show (0 : Nat) ≠ ncommands tokens - 1 by omega), if_pos hp0]
    simp [hf0, hc1, show (0 : Nat) ≠ ncommands tokens - 1 by omega]
  have hloopE : spawn_loop env (ncommands tokens) 1
      = Except.error ⟨[0], [1], 1, [(0, [0, 1])]⟩ := by
    simp only [spawn_loop, hstep]
  have hfull := spawn_loop_error_of_le env (ncommands tokens) hloopE
    (ncommands tokens) (by omega)
  unfold run_pipelined_commands
  rw [hm, hsl]
  simp only [Bool.true_eq_false, if_false, hfull]
  simp

/-- C5 (amended): the wait loop passes NULL to wait and ignores child
exit statuses: whenever every parent-side OS call succeeds, the run
returns 0 and performs one wait call per command, regardless of the
children's exit statuses (the child environments are unconstrained). -/
theorem C5_amended_exit_statuses_ignored (env : OsEnv) (tokens : List String)
    (h : okParentEnv env) (hN : 1 ≤ numPipes tokens) :
    (run_pipelined_commands env tokens).retVal = 0 ∧
    (run_pipelined_commands env tokens).waitCalls = ncommands tokens := by
  rw [run_ok_eq env tokens h hN]
  exact ⟨rfl, rfl⟩
/-- C3: a child in which run_command returns failure (or in which dup2
fails) exits with status 0, not non-zero: run_piped_command returns 1 but
the child compares that value against -1, so it falls through to
exit(0) — the code contradicts its own `exit(0); //never reached`
comment and the documented 0/1 return convention. -/
theorem C3_failed_child_exits_zero :
    (child_result envRunnerFail ["nosuchcmd", "|", "b"] 0).map ChildResult.exitStatus
        = some 0 ∧
    (child_result envRunnerFail ["nosuchcmd", "|", "b"] 0).map ChildResult.ranCommand
        = some true ∧
    (child_result envRunnerFail ["nosuchcmd", "|", "b"] 0).map ChildResult.execed
        = some false ∧
    (child_result envDup2Fail ["nosuchcmd", "|", "b"] 0).map ChildResult.exitStatus
        = some 0 ∧
    (child_result envDup2Fail ["nosuchcmd", "|", "b"] 0).map ChildResult.ranCommand
        = some false := by
  decide

/-- C6: on a delimiter-free token sequence the run allocates zero
channels, but the single child takes the `i == 0` branch, attempts to
close pipe slot 0 (never allocated, so the close fails) and exits 1
without ever invoking the command runner — it does not run the command
with inherited standard streams. -/
theorem C6_single_command_child_touches_pipe_slots :
    (run_pipelined_commands envAllOk ["ls"]).pipes = 0 ∧
    (run_pipelined_commands envAllOk ["ls"]).spawned = [(0, [])] ∧
    (child_result envAllOk ["ls"] 0).map ChildResult.closes = some [0] ∧
    (child_result envAllOk ["ls"] 0).map ChildResult.ranCommand = some false ∧
    (child_result envAllOk ["ls"] 0).map ChildResult.exitStatus = some 1 := by
  decide

/-- C4 (counterexample): with fork failing at iteration 1 of a
2-command pipeline, one process was spawned but zero wait calls are
performed, and the read end of channel 0 (slot 0) is left open — the
claimed reap-and-close-all behaviour does not happen. -/
theorem C4_counterexample_fork_failure_skips_reaping :
    (run_pipelined_commands envForkFail1 ["a", "|", "b"]).spawned.length = 1 ∧
    (run_pipelined_commands envForkFail1 ["a", "|", "b"]).waitCalls = 0 ∧
    (run_pipelined_commands envForkFail1 ["a", "|", "b"]).retVal = 1 ∧
    (run_pipelined_commands envForkFail1 ["a", "|", "b"]).opensEnd = [0] := by
  decide

/-- C7 (counterexample): with channel 1 allocation failing in a
3-command pipeline, one process has already been spawned (not zero) and
slot 0, an endpoint of the already-allocated channel 0, is still open on
return — refuting the claimed close-all-and-spawn-nothing behaviour. -/
theorem C7_counterexample_alloc_failure_leaves_endpoint_open :
    (run_pipelined_commands envPipeFail1 ["a", "|", "b", "|", "c"]).retVal = 1 ∧
    (run_pipelined_commands envPipeFail1 ["a", "|", "b", "|", "c"]).spawned.length = 1 ∧
    (run_pipelined_commands envPipeFail1 ["a", "|", "b", "|", "c"]).opensEnd = [0] ∧
    (run_pipelined_commands envPipeFail1 ["a", "|", "b", "|", "c"]).waitCalls = 0 := by
  decide

/-- C9 (counterexample): with the parent's close of slot 1 failing in a
2-command pipeline, the run returns 1 after spawning only one of the two
commands and performs zero wait calls — a parent close failure is not a
warning that lets the pipeline proceed. -/
theorem C9_counterexample_parent_close_failure_aborts :
    (run_pipelined_commands envCloseFail1 ["a", "|", "b"]).retVal = 1 ∧
    (run_pipelined_commands envCloseFail1 ["a", "|", "b"]).spawned.length = 1 ∧
    (run_pipelined_commands envCloseFail1 ["a", "|", "b"]).waitCalls = 0 := by
  decide

/-- C5 (counterexample): on tokens ["false", "|", "true"], where the
first child's program exits with status 1 and the second with 0, the run
still waits for both processes but returns 0 — the non-zero exit is not
reported as a failure. -/
theorem C5_counterexample_nonzero_exit_reported_success :
    (run_pipelined_commands envFalseTrue ["false", "|", "true"]).retVal = 0 ∧
    (run_pipelined_commands envFalseTrue ["false", "|", "true"]).waitCalls = 2 ∧
    (child_result envFalseTrue ["false", "|", "true"] 0).map ChildResult.exitStatus
        = some 1 ∧
    (child_result envFalseTrue ["false", "|", "true"] 1).map ChildResult.exitStatus
        = some 0 := by
  decide

theorem okEnv_envAllOk : okEnv envAllOk :=
  ⟨⟨rfl, rfl, fun _ => rfl, fun _ => rfl, fun _ => rfl, fun _ => rfl⟩,
   fun _ _ => rfl, fun _ _ => rfl⟩

theorem C1_pipeline_endpoints_closed_exactly_once_witness :
    okEnv envAllOk ∧ 1 ≤ numPipes ["a", "|", "b"] ∧
    ((∀ s, s < 2 * numPipes ["a", "|", "b"] →
        (run_pipelined_commands envAllOk ["a", "|", "b"]).pcloses.count s = 1) ∧
      (run_pipelined_commands envAllOk ["a", "|", "b"]).opensEnd = [] ∧
      (∀ p ∈ (run_pipelined_commands envAllOk ["a", "|", "b"]).spawned, ∀ s ∈ p.2,
        ((child_body (envAllOk.child p.1) p.2 p.1
            (ncommands ["a", "|", "b"])).closes.count s = 1) ∧
        (child_body (envAllOk.child p.1) p.2 p.1
            (ncommands ["a", "|", "b"])).opensEnd = [])) :=
  ⟨okEnv_envAllOk, by decide,
   C1_pipeline_endpoints_closed_exactly_once envAllOk ["a", "|", "b"] okEnv_envAllOk (by decide)⟩

theorem C8_redirection_slot_indices_witness :
    okEnv envAllOk ∧ 1 ≤ numPipes ["a", "|", "b"] ∧
    (∀ p ∈ (run_pipelined_commands envAllOk ["a", "|", "b"]).spawned,
      (child_body (envAllOk.child p.1) p.2 p.1 (ncommands ["a", "|", "b"])).dups =
        (if 0 < p.1 then [(StdFd.stdinFd, 2 * p.1 - 2)] else []) ++
        (if p.1 < ncommands ["a", "|", "b"] - 1 then
          [(StdFd.stdoutFd, 2 * p.1 + 1)] else [])) :=
  ⟨okEnv_envAllOk, by decide,
   C8_redirection_slot_indices envAllOk ["a", "|", "b"] okEnv_envAllOk (by decide)⟩

theorem C4_amended_fork_failure_no_reaping_witness :
    envForkFail1.forkOk 1 = false ∧ 2 ≤ ncommands ["a", "|", "b"] ∧
    ((run_pipelined_commands envForkFail1 ["a", "|", "b"]).retVal = 1 ∧
     (run_pipelined_commands envForkFail1 ["a", "|", "b"]).spawned.length = 1 ∧
     (run_pipelined_commands envForkFail1 ["a", "|", "b"]).waitCalls = 0) :=
  ⟨rfl, by decide,
   C4_amended_fork_failure_no_reaping envForkFail1 ["a", "|", "b"] 1 rfl rfl (fun _ => rfl)
     (fun i hi => by
        have h0 : i = 0 := by omega
        subst h0
        rfl)
     rfl (fun _ => rfl) (by decide) (by decide)⟩

theorem C7_amended_alloc_failure_no_cleanup_witness :
    envPipeFail1.pipeOk 1 = false ∧ 1 ≤ 1 ∧
    ((run_pipelined_commands envPipeFail1 ["a", "|", "b", "|", "c"]).retVal = 1 ∧
     (run_pipelined_commands envPipeFail1 ["a", "|", "b", "|", "c"]).spawned.length = 1 ∧
     (run_pipelined_commands envPipeFail1 ["a", "|", "b", "|", "c"]).opensEnd = [2 * 1 - 2] ∧
     (run_pipelined_commands envPipeFail1 ["a", "|", "b", "|", "c"]).waitCalls = 0) :=
  ⟨rfl, le_refl 1,
   C7_amended_alloc_failure_no_cleanup envPipeFail1 ["a", "|", "b", "|", "c"] 1 rfl rfl
     (fun i hi => by
        have h0 : i = 0 := by omega
        subst h0
        rfl)
     rfl (fun _ => rfl) (fun _ => rfl) (le_refl 1) (by decide) (by decide)⟩

theorem C9_amended_parent_close_fatal_witness :
    envCloseFail1.pCloseOk 1 = false ∧ 1 ≤ numPipes ["a", "|", "b"] ∧
    ((run_pipelined_commands envCloseFail1 ["a", "|", "b"]).retVal = 1 ∧
     (run_pipelined_commands envCloseFail1 ["a", "|", "b"]).spawned.length = 1 ∧
     (run_pipelined_commands envCloseFail1 ["a", "|", "b"]).waitCalls = 0) :=
  ⟨rfl, by decide,
   C9_amended_parent_close_fatal envCloseFail1 ["a", "|", "b"] rfl rfl rfl rfl rfl (by decide)⟩

theorem C5_amended_exit_statuses_ignored_witness :
    okParentEnv envFalseTrue ∧ 1 ≤ numPipes ["false", "|", "true"] ∧
    ((run_pipelined_commands envFalseTrue ["false", "|", "true"]).retVal = 0 ∧
     (run_pipelined_commands envFalseTrue ["false", "|", "true"]).waitCalls
        = ncommands ["false", "|", "true"]) :=
  ⟨⟨rfl, rfl, fun _ => rfl, fun _ => rfl, fun _ => rfl, fun _ => rfl⟩, by decide,
   C5_amended_exit_statuses_ignored envFalseTrue ["false", "|", "true"]
     ⟨rfl, rfl, fun _ => rfl, fun _ => rfl, fun _ => rfl, fun _ => rfl⟩ (by decide)⟩

end Shell
